import Mathlib

/-!
Verification of the inbound-examples repository: shallow Lean embeddings of
the composer subject prefill, the domain-setup wizard state machine, the
domain form validator, the gateway client error translation, the webhook
receiver handlers, the AI-reply idempotency key, and the forwarded-content
HTML stripper, each translated from the TypeScript source, together with
theorems settling the specification claims about them.
-/

set_option autoImplicit false

/-! ## Common HTTP response model

Webhook handlers and proxy routes answer with an HTTP status code and a
small JSON body.  We model only the body shapes the handlers actually
produce. -/

/-- The JSON bodies produced by the webhook handlers: an error object, a
message object, a success object carrying an optional message id, or a
status-plus-timestamp object. -/
inductive JsonBody where
  | errorBody (msg : String)
  | messageBody (msg : String)
  | successBody (messageId : Option String)
  | statusBody (status : String) (timestamp : String)
  deriving DecidableEq, Repr

/-- An HTTP response: status code plus JSON body. -/
structure HttpResponse where
  status : Nat
  body : JsonBody
  deriving DecidableEq, Repr

/-! ## Composer subject prefill (src/inbound-mail/components/compose-dialog.tsx)

The reply branch of the dialog reset effect computes the prefilled subject:

  subject: replyData.originalSubject?.startsWith(..Re..)
    ? replyData.originalSubject
    : Re-prefix + (replyData.originalSubject or the fallback No Subject)

JavaScript optional chaining makes the test false when the subject is
absent, and the or-fallback replaces an absent or empty (falsy) subject
with the literal No Subject. -/

/-- JavaScript String.startsWith, computed on the character lists. -/
def jsStartsWith (s p : String) : Bool :=
  p.data.isPrefixOf s.data

/-- Prefilled subject in reply mode, translated from the ComposeDialog
reset effect.  `none` models an absent (undefined) originalSubject. -/
def prefillSubject (originalSubject : Option String) : String :=
  match originalSubject with
  | some s =>
      if jsStartsWith s "Re: " then s
      else "Re: " ++ (if s = "" then "No Subject" else s)
  | none => "Re: No Subject"

/-! ## Domain-setup wizard (src/unnamed/part_005, DomainsDashboard)

The wizard keeps a current step (a JavaScript number) and an optional
domain payload.  We model the payload abstractly: the load effect only
parses it and stores it, never inspects its fields. -/

/-- The domain payload held by the wizard; the fields the refresh
transition inspects, as returned by the domains proxy route. -/
structure DomainData where
  id : String
  domain : String
  status : String
  hasMxRecords : Bool
  deriving DecidableEq, Repr

/-- Wizard UI state relevant to the claims: the current step, the stored
domain payload, and whether the DNS-detail panel is expanded. -/
structure WizardState where
  step : Int
  domainData : Option DomainData
  dnsExpanded : Bool
  deriving DecidableEq, Repr

/-- The initial wizard state: useState(1), useState(null), useState(true). -/
def initialWizardState : WizardState :=
  { step := 1, domainData := none, dnsExpanded := true }

/-- JavaScript parseInt(s, 10): skip leading whitespace, allow one sign,
then read a maximal digit prefix; `none` models NaN (no digits found). -/
def parseIntJS (s : String) : Option Int :=
  let chars := s.data.dropWhile (fun c => c = ' ' || c = '\t' || c = '\n' || c = '\r')
  let signAndDigits : Bool × List Char :=
    match chars with
    | '-' :: rest => (true, rest)
    | '+' :: rest => (false, rest)
    | rest => (false, rest)
  let digits := signAndDigits.2.takeWhile Char.isDigit
  if digits.isEmpty then none
  else
    let n : Nat := digits.foldl (fun acc c => acc * 10 + (c.toNat - 48)) 0
    some (if signAndDigits.1 then -(n : Int) else (n : Int))

/-- Outcome of JSON.parse on the saved domain payload: the raw entry is
either absent, unparseable (the parse throws), or a parsed payload. -/
inductive StoredDomainEntry where
  | absent
  | unparseable
  | parsed (d : DomainData)
  deriving DecidableEq, Repr

/-- The two persisted local-storage entries read by the wizard load
effect: the domain payload under inbound_domain_data and the raw step
string under inbound_current_step. -/
structure StoredEntries where
  domainEntry : StoredDomainEntry
  stepEntry : Option String
  deriving DecidableEq, Repr

/-- The wizard load effect, translated from the DomainsDashboard mount
effect: parse the saved payload and store it, then parse the saved step
and accept it only when it is a number between 1 and 4; a thrown parse
error is caught, both entries are removed, and the state is left at its
initial values. -/
def loadWizardState (e : StoredEntries) : WizardState :=
  match e.domainEntry with
  | .unparseable => initialWizardState
  | .absent =>
      { initialWizardState with step := loadStep e.stepEntry }
  | .parsed d =>
      { initialWizardState with domainData := some d, step := loadStep e.stepEntry }
where
  /-- Step restoration: parseInt, then the range guard from the source
  (not NaN, at least 1, at most 4); otherwise the initial step 1. -/
  loadStep (stepEntry : Option String) : Int :=
    match stepEntry with
    | none => 1
    | some s =>
        match parseIntJS s with
        | none => 1
        | some n => if 1 ≤ n ∧ n ≤ 4 then n else 1

/-- The storage contents after the mount completes: the two save effects
re-serialize the final state, overwriting whatever was stored (the domain
entry is written when a payload is held and removed otherwise; the step
entry is always written). -/
def storageAfterMount (e : StoredEntries) : Option DomainData × Option String :=
  let st := loadWizardState e
  (st.domainData, some (toString st.step))

/-- The response of the domains verification proxy inspected by
refreshDomain: the status string and the hasMxRecords flag. -/
def refreshDomainTransition (result : DomainData) (st : WizardState) : WizardState :=
  let st := { st with domainData := some result }
  if result.status = "verified" then
    { st with step := 4, dnsExpanded := false }
  else if result.hasMxRecords then
    { st with step := 3 }
  else
    st

/-- Successful domain creation (createDomain success path): store the
returned payload and move to step 2. -/
def createDomainSuccess (result : DomainData) (st : WizardState) : WizardState :=
  { st with domainData := some result, step := 2 }

/-- The start-over action (clearSavedData): drop the payload, return to
step 1, and re-expand the DNS panel. -/
def clearSavedData (st : WizardState) : WizardState :=
  { st with domainData := none, step := 1, dnsExpanded := true }

/-- The wizard operations that can touch the current step, in the order
they appear in the source: the mount-time load, a successful creation, a
refresh response, and start-over.  Failed requests leave the step alone
and are therefore represented by the identity (no constructor). -/
inductive WizardEvent where
  | load (e : StoredEntries)
  | createSuccess (result : DomainData)
  | refresh (result : DomainData)
  | startOver
  deriving Repr

/-- Apply one wizard event to the state. -/
def applyWizardEvent (ev : WizardEvent) (st : WizardState) : WizardState :=
  match ev with
  | .load e => loadWizardState e
  | .createSuccess r => createDomainSuccess r st
  | .refresh r => refreshDomainTransition r st
  | .startOver => clearSavedData st

/-- Run a sequence of wizard events from the initial state. -/
def runWizard (evs : List WizardEvent) : WizardState :=
  evs.foldl (fun st ev => applyWizardEvent ev st) initialWizardState

/-! ## Gateway client error translation (src/unnamed/part_001, InboundClient.makeRequest)

makeRequest throws on a non-ok response; the thrown message is the parsed
body error field when truthy, else the status line; an unparseable body is
replaced by an object whose error field is the literal Unknown error. -/

/-- The parsed JSON body of an upstream response, as far as makeRequest
inspects it: an optional error field (none models both an absent field
and a null one, which are equally falsy). -/
structure UpstreamJson where
  errorField : Option String
  deriving DecidableEq, Repr

/-- An upstream HTTP response: the ok flag, the status code and text, and
the JSON parse of the body (`none` when the body is not parseable JSON). -/
structure UpstreamResponse where
  ok : Bool
  status : Nat
  statusText : String
  jsonBody : Option UpstreamJson
  deriving DecidableEq, Repr

/-- The status line makeRequest embeds in the fallback message. -/
def statusLine (r : UpstreamResponse) : String :=
  "HTTP " ++ toString r.status ++ ": " ++ r.statusText

/-- makeRequest, translated from InboundClient: an ok response resolves
with the parsed body; a non-ok response throws an Error whose message is
the body error field when truthy (JavaScript: absent, null and the empty
string are falsy), else the status line, with the whole body replaced by
an Unknown error object when the body cannot be parsed as JSON. -/
def makeRequest (r : UpstreamResponse) : Except String (Option UpstreamJson) :=
  if r.ok then
    .ok r.jsonBody
  else
    let errObj : UpstreamJson :=
      match r.jsonBody with
      | some o => o
      | none => { errorField := some "Unknown error" }
    match errObj.errorField with
    | some e => if e = "" then .error (statusLine r) else .error e
    | none => .error (statusLine r)

/-! ## Webhook receiver handlers (C2, C3)

Each variant is modelled as a pure function of the request payload and of
the outcomes of its fallible external steps (token counting and file
writes for copymail, body parsing, PDF rendering and the reply call for
the PDF variant).  An Except error carries the thrown message. -/

/-- The copymail email payload, as far as the handler inspects it. -/
structure CmEmail where
  htmlBody : Option String
  deriving DecidableEq, Repr

/-- The copymail request body: the optional email field. -/
structure CopymailBody where
  email : Option CmEmail
  deriving DecidableEq, Repr

/-- The copymail handler inputs: the parsed request body (none models a
missing/empty req.body) and the outcome of the processing section
(tiktoken encoding and the two file writes); an error carries the thrown
message. -/
structure CopymailEnv where
  body : Option CopymailBody
  procResult : Except String Unit

/-- The copymail webhook handler (src/copymail/index.ts, POST
/api/inbound): 400 without a body, 400 without an email field, 200 on
success, and on any thrown processing exception the catch answers 500
with the fixed message Internal server error. -/
def copymailInboundHandler (env : CopymailEnv) : HttpResponse :=
  match env.body with
  | none => { status := 400, body := .errorBody "Request body is empty" }
  | some b =>
      match b.email with
      | none => { status := 400, body := .errorBody "Email data not found in request body" }
      | some _ =>
          match env.procResult with
          | .ok _ => { status := 200, body := .messageBody "Inbound data received successfully" }
          | .error _ => { status := 500, body := .errorBody "Internal server error" }

/-- The cleaned-content block of the PDF variant payload. -/
structure CleanedContent where
  hasHtml : Bool
  html : Option String
  hasText : Bool
  text : Option String
  deriving DecidableEq, Repr

/-- The PDF variant email payload, as far as the handler inspects it. -/
structure PdfEmail where
  id : String
  cleanedContent : CleanedContent
  deriving DecidableEq, Repr

/-- The message of the TypeError thrown when the handler reads
payload.email.cleanedContent and payload.email is undefined. -/
def undefinedEmailError : String :=
  "Cannot read properties of undefined"

/-- The PDF variant handler inputs: the outcome of c.req.json (throws, or
a payload whose email field may be absent), of the Browserless render
call (throws with a message, or returns a buffer, abstracted as a
string), and of the reply call (throws, or returns a result carrying an
optional error string and an optional message id). -/
structure PdfEnv where
  parsed : Except String (Option PdfEmail)
  pdfResult : Except String String
  replyResult : Except String (Option String × Option String)

/-- The PDF webhook handler (the Hono app in
src/domains-setup/app/api/domains/route.ts, POST /api/inbound): 400 only
when the payload carries neither HTML nor text content; a result-level
reply error answers 500 with that error; and the catch handler answers
500 with the thrown exception message itself (error.message) rather than
a fixed generic message. -/
def pdfInboundHandler (env : PdfEnv) : HttpResponse :=
  match env.parsed with
  | .error m => { status := 500, body := .errorBody m }
  | .ok none => { status := 500, body := .errorBody undefinedEmailError }
  | .ok (some email) =>
      if email.cleanedContent.hasHtml || email.cleanedContent.hasText then
        match env.pdfResult with
        | .error m => { status := 500, body := .errorBody m }
        | .ok _ =>
            match env.replyResult with
            | .error m => { status := 500, body := .errorBody m }
            | .ok (some err, _) => { status := 500, body := .errorBody err }
            | .ok (none, mid) => { status := 200, body := .successBody mid }
      else
        { status := 400, body := .errorBody "No content found in email" }

/-- The AI-analysis email payload, as far as the handler inspects it. -/
structure AiEmail where
  id : String
  messageId : String
  deriving DecidableEq, Repr

/-- The AI-analysis webhook handler (src/unnamed/part_007, POST
/api/inbound): it destructures email from the body with no validation and
immediately reads email.from, so an absent email field throws a TypeError
out of the handler (no response is produced by the handler itself);
otherwise it schedules the analysis with waitUntil and acknowledges 200
with a status object at the current timestamp. -/
def aiInboundHandler (email : Option AiEmail) (now : String) : Except String HttpResponse :=
  match email with
  | none => .error undefinedEmailError
  | some _ => .ok { status := 200, body := .statusBody "ok" now }

/-! ## Domain form validator (src/unnamed/part_005, domainSchema)

The zod schema is: min(1), the anchored regex label(.label)+ over ASCII
letters, digits and hyphens, and a refinement adding: no two consecutive
dots, no leading or trailing dot or hyphen on the whole string, every
dot-separated part nonempty, at most 63 characters and without a leading
or trailing hyphen, and the last part (the top-level label) matching at
least two ASCII letters.  We work on character lists, with JavaScript
split(dot) realized by splitDots. -/

/-- The character class of the domain regex: ASCII letter, digit or hyphen. -/
def isAlnumHyphen (c : Char) : Bool :=
  c.isAlpha || c.isDigit || c = '-'

/-- JavaScript split on a dot: splitDots [] = [[]], and a dot starts a
new (possibly empty) part. -/
def splitDots : List Char → List (List Char)
  | [] => [[]]
  | c :: t =>
      if c = '.' then [] :: splitDots t
      else
        match splitDots t with
        | h :: r => (c :: h) :: r
        | [] => [[c]]

/-- Whether the first character is c (the startsWith check). -/
def headIs (c : Char) (s : List Char) : Bool :=
  match s with
  | [] => false
  | a :: _ => a = c

/-- Whether the string contains two consecutive dots (the includes check
of the refinement). -/
def hasDoubleDot : List Char → Bool
  | [] => false
  | c :: t => (c = '.' && headIs '.' t) || hasDoubleDot t

/-- Whether the last character is c (the endsWith check). -/
def lastIs (c : Char) (s : List Char) : Bool :=
  match s.getLast? with
  | none => false
  | some a => a = c

/-- The anchored regex of the schema, label(.label)+ over the
alnum-hyphen class: at least two dot-separated parts, every part
nonempty and within the class. -/
def domainRegexOk (s : List Char) : Bool :=
  let parts := splitDots s
  2 ≤ parts.length && parts.all (fun p => !p.isEmpty && p.all isAlnumHyphen)

/-- The per-part checks of the refinement: nonempty, at most 63
characters, no leading or trailing hyphen. -/
def refinePartOk (p : List Char) : Bool :=
  0 < p.length && p.length ≤ 63 && !headIs '-' p && !lastIs '-' p

/-- The top-level-label regex of the refinement: at least two characters,
all ASCII letters. -/
def tldOk (p : List Char) : Bool :=
  2 ≤ p.length && p.all Char.isAlpha

/-- The refine callback of domainSchema, translated check by check. -/
def domainRefineOk (s : List Char) : Bool :=
  !hasDoubleDot s &&
  !headIs '.' s && !lastIs '.' s &&
  !headIs '-' s && !lastIs '-' s &&
  (splitDots s).all refinePartOk &&
  (match (splitDots s).getLast? with
   | some p => tldOk p
   | none => false)

/-- The full domainSchema validation on a character list: min(1), the
regex, and the refinement all pass. -/
def validDomainChars (s : List Char) : Bool :=
  1 ≤ s.length && domainRegexOk s && domainRefineOk s

/-- The full domainSchema validation on a string. -/
def validDomain (s : String) : Bool :=
  validDomainChars s.data

/-- Modelled from the claim wording, for comparison with the source
validator: a label is 1 to 63 ASCII letters, digits or hyphens with no
leading or trailing hyphen. -/
def claimLabelOk (p : List Char) : Bool :=
  1 ≤ p.length && p.length ≤ 63 &&
  p.all isAlnumHyphen && !headIs '-' p && !lastIs '-' p

/-- Modelled from the claim wording: accept exactly the strings of the
form label(.label)+ whose labels all satisfy claimLabelOk and whose last
(top-level) label is alphabetic. -/
def claimValidDomain (s : List Char) : Bool :=
  let parts := splitDots s
  2 ≤ parts.length && parts.all claimLabelOk &&
  (match parts.getLast? with
   | some p => !p.isEmpty && p.all Char.isAlpha
   | none => false)

/-- The amended claim wording: as claimValidDomain, but the top-level
label must consist of at least two ASCII letters. -/
def claimValidDomainAmended (s : List Char) : Bool :=
  let parts := splitDots s
  2 ≤ parts.length && parts.all claimLabelOk &&
  (match parts.getLast? with
   | some p => tldOk p
   | none => false)

/-! ## Forwarded-content stripper (the Hono app in
src/domains-setup/app/api/domains/route.ts, removeForwardedContent)

The function applies sixteen global regex replacements in a fixed order
and trims the result.  Every quantified subexpression in those regexes is
a single character class, so we embed them with a small backtracking
matcher over items (case-insensitive literal, one class character, a
greedy or lazy class star, one-character lookahead) whose search order is
exactly the JavaScript one: greedy stars consume first and give back on
failure, lazy stars try the continuation first. -/

/-- JavaScript regex whitespace (the \s class): tab through carriage
return, space, no-break space, the Unicode space separators, the line
separators, narrow and medium mathematical spaces, ideographic space and
the byte-order mark. -/
def jsWhitespace (c : Char) : Bool :=
  c = ' ' || c = '\t' || c = '\n' || c = '\r' ||
  c.toNat = 0x0b || c.toNat = 0x0c || c.toNat = 0xa0 || c.toNat = 0x1680 ||
  (0x2000 ≤ c.toNat && c.toNat ≤ 0x200a) ||
  c.toNat = 0x2028 || c.toNat = 0x2029 || c.toNat = 0x202f ||
  c.toNat = 0x205f || c.toNat = 0x3000 || c.toNat = 0xfeff

/-- The JavaScript dot without the s flag: any character except the four
line terminators. -/
def jsDot (c : Char) : Bool :=
  !(c = '\n' || c = '\r' || c.toNat = 0x2028 || c.toNat = 0x2029)

/-- The character classes appearing in the stripper regexes. -/
inductive CharCls where
  | anyc
  | dot
  | wsp
  | hyph
  | notGt
  | notQuote
  deriving DecidableEq, Repr

/-- Class membership: anyc covers every character, dot excludes line
terminators, wsp matches whitespace, hyph only the hyphen, notGt and
notQuote everything but a closing angle bracket or a double quote. -/
def ccMatch : CharCls → Char → Bool
  | .anyc, _ => true
  | .dot, c => jsDot c
  | .wsp, c => jsWhitespace c
  | .hyph, c => c = '-'
  | .notGt, c => !(c = '>')
  | .notQuote, c => !(c = '"')

/-- ASCII lowercasing, for the i flag carried by every stripper regex. -/
def lcChar (c : Char) : Char :=
  if 'A' ≤ c && c ≤ 'Z' then Char.ofNat (c.toNat + 32) else c

/-- One item of a stripper regex: a case-insensitive literal (stored in
lowercase), exactly one class character, a class star (greedy or lazy),
or a one-character lookahead. -/
inductive RexItem where
  | lit (c : Char)
  | once (cc : CharCls)
  | star (cc : CharCls) (lazy : Bool)
  | lookahead (c : Char)
  deriving DecidableEq, Repr

/-- Backtracking match of an item list against the input at the current
position, returning the rest of the input after the first match found in
the JavaScript search order (greedy stars consume first, lazy stars try
the continuation first).  The fuel bounds the recursion depth; every
recursive call strictly decreases the lexicographic measure (pattern
length, input length), so a chain of calls starting from pattern length p
and input length n is shorter than (p + 1) * (n + 1), the fuel supplied
by matchItems below; the out-of-fuel branch is therefore never taken. -/
def matchItemsF (fuel : Nat) (pat : List RexItem) (s : List Char) : Option (List Char) :=
  match fuel with
  | 0 => none
  | fuel + 1 =>
    match pat, s with
    | [], rest => some rest
    | .lit c :: rest, a :: t => if lcChar a = c then matchItemsF fuel rest t else none
    | .lit _ :: _, [] => none
    | .once cc :: rest, a :: t => if ccMatch cc a then matchItemsF fuel rest t else none
    | .once _ :: _, [] => none
    | .lookahead c :: rest, a :: t =>
        if a = c then matchItemsF fuel rest (a :: t) else none
    | .lookahead _ :: _, [] => none
    | .star cc true :: rest, t =>
        match matchItemsF fuel rest t with
        | some r => some r
        | none =>
            match t with
            | a :: t2 => if ccMatch cc a then matchItemsF fuel (.star cc true :: rest) t2 else none
            | [] => none
    | .star cc false :: rest, t =>
        match t with
        | a :: t2 =>
            if ccMatch cc a then
              match matchItemsF fuel (.star cc false :: rest) t2 with
              | some r => some r
              | none => matchItemsF fuel rest t
            else matchItemsF fuel rest t
        | [] => matchItemsF fuel rest []

/-- Match an item list at the current position with sufficient fuel. -/
def matchItems (pat : List RexItem) (s : List Char) : Option (List Char) :=
  matchItemsF ((pat.length + 1) * (s.length + 1)) pat s

/-- Global regex replacement: scan for the leftmost match, emit the
replacement in its place, and continue after it.  Every stripper pattern
begins with a consuming item and therefore never matches the empty
string, so the guard against a non-shrinking match never fires on them.
Each step strictly shortens the input, so the fuel supplied by replaceAll
below is never exhausted. -/
def replaceAllF (fuel : Nat) (pat : List RexItem) (rep : List Char) (s : List Char) :
    List Char :=
  match fuel with
  | 0 => s
  | fuel + 1 =>
    match matchItemsF ((pat.length + 1) * (s.length + 1)) pat s with
    | some r =>
        if r.length < s.length then rep ++ replaceAllF fuel pat rep r
        else
          match s with
          | [] => []
          | c :: t => c :: replaceAllF fuel pat rep t
    | none =>
        match s with
        | [] => []
        | c :: t => c :: replaceAllF fuel pat rep t

/-- Global replacement with sufficient fuel. -/
def replaceAll (pat : List RexItem) (rep : List Char) (s : List Char) : List Char :=
  replaceAllF (s.length + 1) pat rep s

/-- A case-insensitive literal sequence. -/
def lits (s : String) : List RexItem :=
  s.data.map (fun c => .lit (lcChar c))

/-- The div-by-class pattern family used for the Gmail, Yahoo, Outlook,
Thunderbird, generic quote and forward passes. -/
def divClassPat (cls : String) : List RexItem :=
  lits "<div" ++ [.star .notGt false] ++ lits "class=\"" ++
  [.star .notQuote false] ++ lits cls ++
  [.star .notQuote false, .lit '"', .star .notGt false, .lit '>', .star .anyc true] ++
  lits "</div>"

/-- The blockquote removal pattern. -/
def blockquotePat : List RexItem :=
  lits "<blockquote" ++ [.star .notGt false, .lit '>', .star .anyc true] ++
  lits "</blockquote>"

/-- Five or more hyphens. -/
def dashesFivePlus : List RexItem :=
  [.once .hyph, .once .hyph, .once .hyph, .once .hyph, .once .hyph, .star .hyph false]

/-- The forwarded-message divider pattern. -/
def forwardedDividerPat : List RexItem :=
  dashesFivePlus ++ [.star .wsp false] ++ lits "forwarded" ++
  [.once .wsp, .star .wsp false] ++ lits "message" ++ [.star .wsp false] ++
  dashesFivePlus

/-- The Outlook From/Sent/To/Subject header pattern, ending at a
lookahead for an opening angle bracket. -/
def fromSentToSubjectPat : List RexItem :=
  lits "From:" ++ [.star .anyc true] ++ lits "Sent:" ++ [.star .anyc true] ++
  lits "To:" ++ [.star .anyc true] ++ lits "Subject:" ++
  [.star .anyc true, .lookahead '<']

/-- The original-message divider pattern. -/
def originalMessagePat : List RexItem :=
  dashesFivePlus ++ [.star .wsp false] ++ lits "original" ++
  [.once .wsp, .star .wsp false] ++ lits "message" ++ [.star .wsp false] ++
  dashesFivePlus

/-- The on-date-someone-wrote pattern. -/
def onWrotePat : List RexItem :=
  lits "On" ++ [.once .wsp, .star .wsp false, .once .dot, .star .dot true,
    .once .wsp, .star .wsp false] ++ lits "wrote:"

/-- The empty-div cleanup pattern. -/
def emptyDivPat : List RexItem :=
  lits "<div" ++ [.star .notGt false, .lit '>', .star .wsp false] ++ lits "</div>"

/-- The empty-paragraph cleanup pattern. -/
def emptyParaPat : List RexItem :=
  lits "<p" ++ [.star .notGt false, .lit '>', .star .wsp false] ++ lits "</p>"

/-- Two or more whitespace characters (collapsed to one space). -/
def multiWsPat : List RexItem :=
  [.once .wsp, .once .wsp, .star .wsp false]

/-- Whitespace between a closing and an opening angle bracket (collapsed
away). -/
def tagGapPat : List RexItem :=
  [.lit '>', .once .wsp, .star .wsp false, .lit '<']

/-- JavaScript String.trim on a character list. -/
def jsTrim (s : List Char) : List Char :=
  ((s.dropWhile (fun c => jsWhitespace c)).reverse.dropWhile
    (fun c => jsWhitespace c)).reverse

/-- removeForwardedContent, translated pass by pass from the source: the
fourteen removal regexes in order, the whitespace collapses, and the
final trim. -/
def removeForwardedContent (html : String) : String :=
  let s := html.data
  let s := replaceAll (divClassPat "gmail_quote") [] s
  let s := replaceAll (divClassPat "gmail_attr") [] s
  let s := replaceAll (divClassPat "yahoo_quoted") [] s
  let s := replaceAll (divClassPat "OutlookMessageHeader") [] s
  let s := replaceAll (divClassPat "moz-cite-prefix") [] s
  let s := replaceAll blockquotePat [] s
  let s := replaceAll (divClassPat "quote") [] s
  let s := replaceAll (divClassPat "forward") [] s
  let s := replaceAll forwardedDividerPat [] s
  let s := replaceAll fromSentToSubjectPat [] s
  let s := replaceAll originalMessagePat [] s
  let s := replaceAll onWrotePat [] s
  let s := replaceAll emptyDivPat [] s
  let s := replaceAll emptyParaPat [] s
  let s := replaceAll multiWsPat [' '] s
  let s := replaceAll tagGapPat ['>', '<'] s
  String.mk (jsTrim s)

/-- Whether one string occurs as a contiguous substring of another,
used to state that quoted content survives in the stripper output. -/
def containsSub (hay needle : List Char) : Bool :=
  match hay with
  | [] => needle.isEmpty
  | _ :: t => needle.isPrefixOf hay || containsSub t needle

/-! ## AI-reply idempotency key (src/unnamed/part_007, analyzeEmail) -/

/-- The idempotency key attached to the AI reply, translated from
analyzeEmail: the fixed prefix concatenated with the original message id. -/
def idempotencyKey (messageId : String) : String :=
  "reply-analysis-agent-" ++ messageId

/-- Modelled from the spec: the upstream send-with-idempotency-key ledger
(the Inbound API itself is out of scope; the spec states that the reply
is deduplicated via the idempotency key).  A send whose key is already in
the ledger adds nothing; a fresh key records one reply. -/
def sendWithKey (ledger : List String) (key : String) : List String :=
  if key ∈ ledger then ledger else key :: ledger

/-- Replay a list of webhook deliveries, each carrying the source message
id, through the AI handler reply path: every delivery sends the reply
with the idempotency key derived from its message id. -/
def replayDeliveries (messageIds : List String) : List String :=
  messageIds.foldl (fun ledger m => sendWithKey ledger (idempotencyKey m)) []

/-! # Helper lemmas -/

/-- Two Booleans agreeing as propositions are equal. -/
theorem bool_eq_of_iff {a b : Bool} (h : a = true ↔ b = true) : a = b := by
  cases a <;> cases b <;> simp_all

/-- splitDots never returns the empty list of parts. -/
theorem splitDots_ne_nil (s : List Char) : splitDots s ≠ [] := by
  cases s with
  | nil => simp [splitDots]
  | cons c t =>
    simp only [splitDots]
    split
    · simp
    · split <;> simp

/-- splitDots of any string is some nonempty list of parts. -/
theorem splitDots_dest (t : List Char) : ∃ h r, splitDots t = h :: r := by
  cases hx : splitDots t with
  | nil => exact absurd hx (splitDots_ne_nil t)
  | cons a b => exact ⟨a, b, rfl⟩

/-- A leading dot opens an empty first part. -/
theorem splitDots_dot (t : List Char) : splitDots ('.' :: t) = [] :: splitDots t := by
  simp [splitDots]

/-- A leading non-dot character joins the first part of the tail. -/
theorem splitDots_cons (c : Char) (t : List Char) (hc : c ≠ '.') (h : List Char)
    (r : List (List Char)) (hsp : splitDots t = h :: r) :
    splitDots (c :: t) = (c :: h) :: r := by
  simp [splitDots, hc, hsp]

/-- A string split into a single part is that part (it contains no dot). -/
theorem splitDots_singleton : ∀ (t h : List Char), splitDots t = [h] → t = h
  | [], h, heq => by
      simp [splitDots] at heq
      exact heq.symm
  | c :: t, h, heq => by
      by_cases hc : c = '.'
      · subst hc
        rw [splitDots_dot] at heq
        injection heq with h1 h2
        exact absurd h2 (splitDots_ne_nil t)
      · obtain ⟨h0, r, hsp⟩ := splitDots_dest t
        rw [splitDots_cons c t hc h0 r hsp] at heq
        injection heq with h1 h2
        subst h2
        have ht := splitDots_singleton t h0 hsp
        rw [ht, h1]

/-- The last character of the string is the last character of the last
part, provided that part is nonempty. -/
theorem splitDots_getLast (s : List Char) :
    ∀ p, (splitDots s).getLast? = some p → p ≠ [] → s.getLast? = p.getLast? := by
  induction s with
  | nil =>
      intro p hp hne
      simp [splitDots] at hp
      exact absurd hp hne
  | cons c t ih =>
      intro p hp hne
      obtain ⟨h0, r, hsp⟩ := splitDots_dest t
      by_cases hc : c = '.'
      · subst hc
        rw [splitDots_dot, hsp, List.getLast?_cons_cons] at hp
        cases t with
        | nil =>
            simp [splitDots] at hsp
            obtain ⟨hh0, hr⟩ := hsp
            subst hh0
            subst hr
            simp at hp
            exact absurd hp hne
        | cons y ys =>
            rw [List.getLast?_cons_cons]
            exact ih p (by rw [hsp]; exact hp) hne
      · rw [splitDots_cons c t hc h0 r hsp] at hp
        cases r with
        | nil =>
            simp at hp
            have hts := splitDots_singleton t h0 hsp
            rw [hts, ← hp]
        | cons r0 rs =>
            rw [List.getLast?_cons_cons] at hp
            have hpt : (splitDots t).getLast? = some p := by
              rw [hsp, List.getLast?_cons_cons]; exact hp
            have hrec := ih p hpt hne
            cases t with
            | nil => simp [splitDots] at hsp
            | cons y ys =>
                rw [List.getLast?_cons_cons]
                exact hrec

/-- A string all of whose dot-separated parts are nonempty contains no
two consecutive dots. -/
theorem hasDoubleDot_eq_false (s : List Char)
    (h : (splitDots s).all (fun p => !p.isEmpty) = true) : hasDoubleDot s = false := by
  match s with
  | [] => rfl
  | c :: t =>
    by_cases hc : c = '.'
    · subst hc
      rw [splitDots_dot] at h
      simp at h
    · obtain ⟨h0, r, hsp⟩ := splitDots_dest t
      rw [splitDots_cons c t hc h0 r hsp] at h
      simp only [List.all_cons, Bool.and_eq_true] at h
      obtain ⟨hch, hr⟩ := h
      show hasDoubleDot (c :: t) = false
      have hcf : (decide (c = '.')) = false := by simp [hc]
      simp only [hasDoubleDot, hcf, Bool.false_and, Bool.false_or]
      cases t with
      | nil => rfl
      | cons d t2 =>
        by_cases hd : d = '.'
        · subst hd
          rw [splitDots_dot] at hsp
          injection hsp with hh0 hrr
          have ht2 : (splitDots t2).all (fun p => !p.isEmpty) = true := by
            rw [hrr]; exact hr
          simp only [hasDoubleDot]
          have hhead : headIs '.' t2 = false := by
            cases t2 with
            | nil => rfl
            | cons e t3 =>
              by_cases he : e = '.'
              · subst he
                rw [splitDots_dot] at ht2
                simp at ht2
              · simp [headIs, he]
          have hrec := hasDoubleDot_eq_false t2 ht2
          simp [hhead, hrec]
        · obtain ⟨h1, r1, hsp2⟩ := splitDots_dest t2
          rw [splitDots_cons d t2 hd h1 r1 hsp2] at hsp
          injection hsp with hh0 hrr
          have htall : (splitDots (d :: t2)).all (fun p => !p.isEmpty) = true := by
            rw [splitDots_cons d t2 hd h1 r1 hsp2]
            simp only [List.all_cons, Bool.and_eq_true]
            exact ⟨by simp, by rw [hrr]; exact hr⟩
          exact hasDoubleDot_eq_false (d :: t2) htall
termination_by s.length

/-- The source validator and the amended claim validator agree, as
propositions, on every character list. -/
theorem validDomainChars_iff_claim (s : List Char) :
    validDomainChars s = true ↔ claimValidDomainAmended s = true := by
  constructor
  · intro h
    simp only [validDomainChars, domainRegexOk, domainRefineOk, Bool.and_eq_true] at h
    obtain ⟨⟨hlen, hp2, hall⟩, ⟨⟨⟨⟨⟨hdd, hhd⟩, hld⟩, hhh⟩, hlh⟩, hpartsOk⟩, htld⟩ := h
    simp only [claimValidDomainAmended, Bool.and_eq_true]
    refine ⟨⟨hp2, ?_⟩, htld⟩
    rw [List.all_eq_true]
    intro p hp
    have h1 := List.all_eq_true.mp hall p hp
    have h2 := List.all_eq_true.mp hpartsOk p hp
    simp only [Bool.and_eq_true] at h1
    simp only [refinePartOk, Bool.and_eq_true] at h2
    obtain ⟨hne, halnum⟩ := h1
    obtain ⟨⟨⟨hpos, hle⟩, hhh2⟩, hlh2⟩ := h2
    simp only [claimLabelOk, Bool.and_eq_true]
    refine ⟨⟨⟨⟨?_, hle⟩, halnum⟩, hhh2⟩, hlh2⟩
    simp only [decide_eq_true_eq] at hpos ⊢
    omega
  · intro h
    simp only [claimValidDomainAmended, Bool.and_eq_true] at h
    obtain ⟨⟨hp2, hall⟩, htld⟩ := h
    have hallP := List.all_eq_true.mp hall
    have hne : (splitDots s).all (fun p => !p.isEmpty) = true := by
      rw [List.all_eq_true]
      intro p hp
      have h1 := hallP p hp
      simp only [claimLabelOk, Bool.and_eq_true, decide_eq_true_eq] at h1
      cases p with
      | nil => simp at h1
      | cons a q => simp
    have hsne : s ≠ [] := by
      intro he
      rw [he] at hp2
      simp [splitDots] at hp2
    obtain ⟨p0, r0, hsp0⟩ := splitDots_dest s
    have hp0lbl := hallP p0 (by rw [hsp0]; exact List.mem_cons_self _ _)
    obtain ⟨pl, hpl⟩ : ∃ pl, (splitDots s).getLast? = some pl := by
      cases hgl : (splitDots s).getLast? with
      | none => exact absurd (List.getLast?_eq_none_iff.mp hgl) (splitDots_ne_nil s)
      | some pl => exact ⟨pl, rfl⟩
    rw [hpl] at htld
    have hpllbl := hallP pl (List.mem_of_mem_getLast? hpl)
    have htld2 : tldOk pl = true := htld
    simp only [tldOk, Bool.and_eq_true, decide_eq_true_eq] at htld2
    obtain ⟨hpl2, hplalpha⟩ := htld2
    have hplne : pl ≠ [] := by
      intro he
      rw [he] at hpl2
      simp at hpl2
    have hlastChar : s.getLast? = pl.getLast? := splitDots_getLast s pl hpl hplne
    have hlc : pl.getLast? = some (pl.getLast hplne) := List.getLast?_eq_getLast pl hplne
    have hlcalpha : (pl.getLast hplne).isAlpha = true :=
      List.all_eq_true.mp hplalpha _ (List.getLast_mem hplne)
    have hlcdot : pl.getLast hplne ≠ '.' := by
      intro he
      rw [he] at hlcalpha
      exact absurd hlcalpha (by decide)
    simp only [claimLabelOk, Bool.and_eq_true] at hpllbl
    obtain ⟨⟨⟨⟨_, _⟩, _⟩, _⟩, hpllast⟩ := hpllbl
    have hlchyph : pl.getLast hplne ≠ '-' := by
      intro he
      rw [lastIs, hlc] at hpllast
      simp [he] at hpllast
    simp only [validDomainChars, domainRegexOk, domainRefineOk, Bool.and_eq_true]
    refine ⟨⟨?_, hp2, ?_⟩, ⟨⟨⟨⟨⟨?_, ?_⟩, ?_⟩, ?_⟩, ?_⟩, ?_⟩, ?_⟩
    · cases s with
      | nil => exact absurd rfl hsne
      | cons a t => simp
    · rw [List.all_eq_true]
      intro p hp
      have h1 := hallP p hp
      simp only [claimLabelOk, Bool.and_eq_true, decide_eq_true_eq] at h1
      obtain ⟨⟨⟨⟨h1le, h63⟩, haln⟩, hh⟩, hl⟩ := h1
      simp only [Bool.and_eq_true]
      refine ⟨?_, haln⟩
      cases p with
      | nil => simp at h1le
      | cons a q => simp
    · rw [hasDoubleDot_eq_false s hne]
      rfl
    · cases s with
      | nil => simp [headIs]
      | cons a t =>
        by_cases ha : a = '.'
        · exfalso
          subst ha
          rw [splitDots_dot, List.cons.injEq] at hsp0
          obtain ⟨h1, h2⟩ := hsp0
          rw [← h1] at hp0lbl
          simp [claimLabelOk] at hp0lbl
        · simp [headIs, ha]
    · simp only [lastIs, hlastChar, hlc]
      simp [hlcdot]
    · cases s with
      | nil => simp [headIs]
      | cons a t =>
        by_cases ha : a = '.'
        · exfalso
          subst ha
          rw [splitDots_dot, List.cons.injEq] at hsp0
          obtain ⟨h1, h2⟩ := hsp0
          rw [← h1] at hp0lbl
          simp [claimLabelOk] at hp0lbl
        · obtain ⟨h1, r1, hsp1⟩ := splitDots_dest t
          rw [splitDots_cons a t ha h1 r1 hsp1, List.cons.injEq] at hsp0
          obtain ⟨hh, hh2⟩ := hsp0
          rw [← hh] at hp0lbl
          simp only [claimLabelOk, Bool.and_eq_true] at hp0lbl
          obtain ⟨⟨⟨⟨_, _⟩, _⟩, hhd0⟩, _⟩ := hp0lbl
          simpa [headIs] using hhd0
    · simp only [lastIs, hlastChar, hlc]
      simp [hlchyph]
    · rw [List.all_eq_true]
      intro p hp
      have h1 := hallP p hp
      simp only [claimLabelOk, Bool.and_eq_true, decide_eq_true_eq] at h1
      obtain ⟨⟨⟨⟨h1le, h63⟩, haln⟩, hh⟩, hl⟩ := h1
      simp only [refinePartOk, Bool.and_eq_true, decide_eq_true_eq]
      exact ⟨⟨⟨by omega, h63⟩, hh⟩, hl⟩
    · rw [hpl]
      exact htld

/-- One step of the wizard keeps the current step within 1..4. -/
theorem applyWizardEvent_step_bounds (ev : WizardEvent) (st : WizardState)
    (h1 : 1 ≤ st.step) (h4 : st.step ≤ 4) :
    1 ≤ (applyWizardEvent ev st).step ∧ (applyWizardEvent ev st).step ≤ 4 := by
  cases ev with
  | load e =>
    have hb : 1 ≤ loadWizardState.loadStep e.stepEntry ∧
        loadWizardState.loadStep e.stepEntry ≤ 4 := by
      cases he : e.stepEntry with
      | none => simp [loadWizardState.loadStep]
      | some str =>
        simp only [loadWizardState.loadStep]
        cases parseIntJS str with
        | none => simp
        | some n =>
          by_cases hn : 1 ≤ n ∧ n ≤ 4 <;> simp [hn]
    cases hd : e.domainEntry <;>
      simp_all [applyWizardEvent, loadWizardState, initialWizardState]
  | createSuccess r =>
    simp [applyWizardEvent, createDomainSuccess]
  | refresh r =>
    simp only [applyWizardEvent, refreshDomainTransition]
    split_ifs <;> simp_all
  | startOver =>
    simp [applyWizardEvent, clearSavedData]

/-- Folding wizard events preserves the step bounds. -/
theorem runWizard_step_bounds (evs : List WizardEvent) (st : WizardState)
    (h1 : 1 ≤ st.step) (h4 : st.step ≤ 4) :
    1 ≤ (evs.foldl (fun st ev => applyWizardEvent ev st) st).step ∧
    (evs.foldl (fun st ev => applyWizardEvent ev st) st).step ≤ 4 := by
  induction evs generalizing st with
  | nil => exact ⟨h1, h4⟩
  | cons ev rest ih =>
    simp only [List.foldl_cons]
    obtain ⟨a, b⟩ := applyWizardEvent_step_bounds ev st h1 h4
    exact ih _ a b

/-- The replay ledger stays within one entry when every delivery carries
the same message id. -/
theorem replay_ledger_aux (l : List String) (m : String) :
    ∀ (led : List String), (∀ k ∈ led, k = idempotencyKey m) → led.length ≤ 1 →
    (∀ x ∈ l, x = m) →
    (l.foldl (fun ledger x => sendWithKey ledger (idempotencyKey x)) led).length ≤ 1 ∧
    ∀ k ∈ l.foldl (fun ledger x => sendWithKey ledger (idempotencyKey x)) led,
      k = idempotencyKey m := by
  induction l with
  | nil => intro led hk hlen _; exact ⟨hlen, hk⟩
  | cons x rest ih =>
    intro led hk hlen hl
    have hx : x = m := hl x (List.mem_cons_self _ _)
    have hrest : ∀ y ∈ rest, y = m := fun y hy => hl y (List.mem_cons_of_mem _ hy)
    simp only [List.foldl_cons]
    subst hx
    by_cases hmem : idempotencyKey x ∈ led
    · rw [sendWithKey, if_pos hmem]
      exact ih led hk hlen hrest
    · rw [sendWithKey, if_neg hmem]
      have hledNil : led = [] := by
        cases led with
        | nil => rfl
        | cons k ks =>
          exact absurd ((hk k (List.mem_cons_self _ _)) ▸ List.mem_cons_self k ks) hmem
      subst hledNil
      refine ih [idempotencyKey x] ?_ (by simp) hrest
      intro k hk2
      simpa using hk2

/-! # Claim theorems -/

/-- C1 (counterexample): on an HTML input whose gmail_quote div contains
a nested div, the stripper removes only up to the first nested closing
div tag: the output still contains the quoted text after the nested
element (and a stray closing tag), so the entire subtree of the
quote-marker div is not removed. -/
theorem removeForwardedContent_nested_not_removed :
    removeForwardedContent
        "<div class=\"gmail_quote\">hello<div>nested</div>tail</div><p>sib</p>"
      = "tail</div><p>sib</p>" ∧
    containsSub ("tail</div><p>sib</p>").data ("tail").data = true ∧
    ("tail</div><p>sib</p>" : String) ≠ "<p>sib</p>" :=
  ⟨by decide, by decide, by decide⟩

/-- C1 (amended): when the gmail_quote div contains no nested closing div
tag, the div and its whole content are removed and the sibling content
that follows (here untouched by the later cleanup passes) is preserved
intact, both with and without preceding sibling content. -/
theorem removeForwardedContent_flat_quote_removed :
    removeForwardedContent
        "<div class=\"gmail_quote\">quoted reply</div><p>Thanks for the update</p>"
      = "<p>Thanks for the update</p>" ∧
    removeForwardedContent
        "<div dir=\"ltr\">Hi team</div><div class=\"gmail_quote\">old thread</div><p>Regards</p>"
      = "<div dir=\"ltr\">Hi team</div><p>Regards</p>" :=
  ⟨by decide, by decide⟩

/-- C2 (counterexample): the PDF webhook variant answers a processing
exception with 500 whose error body is exactly the thrown exception
message (here the render failure message), so the exception detail does
appear in the response body. -/
theorem pdfHandler_echoes_exception_message :
    pdfInboundHandler
      { parsed :=
          .ok (some
            { id := "em_1",
              cleanedContent :=
                { hasHtml := true, html := some "<p>x</p>", hasText := false, text := none } }),
        pdfResult := .error "Failed to generate PDF: Bad Gateway",
        replyResult := .ok (none, none) }
      = { status := 500, body := .errorBody "Failed to generate PDF: Bad Gateway" } := by
  rfl

/-- C2 (amended): on a thrown processing exception the copymail variant
answers 500 with the fixed generic message, while the PDF variant answers
500 with the exception message itself, and the AI-analysis variant has
already acknowledged 200 before the analysis runs, so a background
exception produces no 500 at all. -/
theorem webhook_exception_responses (e : CmEmail) (m : String) (i : String)
    (oh : Option String) (ht : Bool) (ot : Option String)
    (rr : Except String (Option String × Option String)) (a : AiEmail) (now : String) :
    copymailInboundHandler { body := some { email := some e }, procResult := .error m }
      = { status := 500, body := .errorBody "Internal server error" } ∧
    pdfInboundHandler
      { parsed :=
          .ok (some
            { id := i,
              cleanedContent :=
                { hasHtml := true, html := oh, hasText := ht, text := ot } }),
        pdfResult := .error m, replyResult := rr }
      = { status := 500, body := .errorBody m } ∧
    aiInboundHandler (some a) now = .ok { status := 200, body := .statusBody "ok" now } := by
  refine ⟨rfl, ?_, rfl⟩
  simp [pdfInboundHandler]

/-- C3 (counterexample): the AI-analysis webhook variant does not answer
400 when the request body has no email object: destructuring undefined
throws a TypeError out of the handler, so no response is produced at all. -/
theorem aiHandler_missing_email_throws :
    aiInboundHandler none "2026-10-11T00:00:00.000Z" = .error undefinedEmailError := by
  rfl

/-- C3 (amended): on a request body without an email object, only the
copymail variant answers 400 (and 400 on a missing body as well); the PDF
variant catches the resulting TypeError and answers 500; the AI-analysis
variant throws without responding. -/
theorem webhook_missing_email_responses (pr : Except String Unit)
    (pdfRes : Except String String)
    (rr : Except String (Option String × Option String)) (now : String) :
    copymailInboundHandler { body := some { email := none }, procResult := pr }
      = { status := 400, body := .errorBody "Email data not found in request body" } ∧
    copymailInboundHandler { body := none, procResult := pr }
      = { status := 400, body := .errorBody "Request body is empty" } ∧
    pdfInboundHandler { parsed := .ok none, pdfResult := pdfRes, replyResult := rr }
      = { status := 500, body := .errorBody undefinedEmailError } ∧
    aiInboundHandler none now = .error undefinedEmailError := by
  exact ⟨rfl, rfl, rfl, rfl⟩

/-- C4 (counterexample): the domain string example.a satisfies every rule
of the claim (labels of letters, digits and hyphens without edge hyphens,
1 to 63 characters, alphabetic top-level label), yet the validator
rejects it, because the source requires the top-level label to match at
least two letters. -/
theorem domainSchema_single_letter_tld :
    claimValidDomain ("example.a".data) = true ∧ validDomain "example.a" = false := by
  decide

/-- C4 (amended): the validator accepts exactly the strings of the form
label(.label)+ whose labels are 1 to 63 ASCII letters, digits or hyphens
with no leading or trailing hyphen, and whose top-level label consists of
at least two ASCII letters. -/
theorem domainSchema_amended (s : String) :
    validDomain s = claimValidDomainAmended s.data :=
  bool_eq_of_iff (validDomainChars_iff_claim s.data)

/-- C5 (counterexample): an empty original subject does not start with
the reply prefix, yet the prefilled subject is the fallback and not the
prefix followed by the (empty) original subject. -/
theorem prefillSubject_empty_subject :
    prefillSubject (some "") = "Re: No Subject" ∧
    ("Re: No Subject" : String) ≠ "Re: " ++ "" := by
  exact ⟨by decide, by decide⟩

/-- C5 (amended): in reply mode the prefilled subject is the original
subject unchanged when it already starts with the reply prefix, the
prefix followed by the original subject when it is nonempty and not yet
prefixed, and the fallback subject when the original subject is empty or
absent. -/
theorem prefillSubject_amended (s : String) :
    (s ≠ "" → jsStartsWith s "Re: " = false → prefillSubject (some s) = "Re: " ++ s) ∧
    (jsStartsWith s "Re: " = true → prefillSubject (some s) = s) ∧
    prefillSubject (some "") = "Re: No Subject" ∧
    prefillSubject none = "Re: No Subject" := by
  refine ⟨?_, ?_, by decide, rfl⟩
  · intro hne hpre
    simp [prefillSubject, hpre, hne]
  · intro hpre
    simp [prefillSubject, hpre]

/-- C5 (witness): the amended theorem at the two subjects named by the
claim. -/
theorem prefillSubject_amended_witness :
    prefillSubject (some "Quarterly Update") = "Re: Quarterly Update" ∧
    prefillSubject (some "Re: Quarterly Update") = "Re: Quarterly Update" :=
  ⟨(prefillSubject_amended "Quarterly Update").1 (by decide) (by decide),
   (prefillSubject_amended "Re: Quarterly Update").2.1 (by decide)⟩

/-- C6: a refresh response with verified status moves the wizard to step
4 from any state and collapses the DNS panel; a response reporting MX
records without verified status moves to step 3; any other response
leaves the step unchanged. -/
theorem refreshDomain_transitions (r : DomainData) (st : WizardState) :
    (r.status = "verified" →
      (refreshDomainTransition r st).step = 4 ∧
      (refreshDomainTransition r st).dnsExpanded = false) ∧
    (r.status ≠ "verified" → r.hasMxRecords = true →
      (refreshDomainTransition r st).step = 3) ∧
    (r.status ≠ "verified" → r.hasMxRecords = false →
      (refreshDomainTransition r st).step = st.step) := by
  refine ⟨?_, ?_, ?_⟩
  · intro hv
    simp [refreshDomainTransition, hv]
  · intro hv hmx
    simp [refreshDomainTransition, hv, hmx]
  · intro hv hmx
    simp [refreshDomainTransition, hv, hmx]

/-- C6 (witness): the theorem applied to a verified refresh response
received while the wizard sits at step 2, and to an MX-only response at
step 3. -/
theorem refreshDomain_transitions_witness :
    (refreshDomainTransition
      { id := "d1", domain := "example.com", status := "verified", hasMxRecords := true }
      { step := 2, domainData := none, dnsExpanded := true }).step = 4 ∧
    (refreshDomainTransition
      { id := "d1", domain := "example.com", status := "verified", hasMxRecords := true }
      { step := 2, domainData := none, dnsExpanded := true }).dnsExpanded = false ∧
    (refreshDomainTransition
      { id := "d1", domain := "example.com", status := "pending", hasMxRecords := true }
      { step := 2, domainData := none, dnsExpanded := true }).step = 3 :=
  ⟨((refreshDomain_transitions _ _).1 (by decide)).1,
   ((refreshDomain_transitions _ _).1 (by decide)).2,
   (refreshDomain_transitions _ _).2.1 (by decide) (by decide)⟩

/-- C7 (counterexample): a non-ok upstream response whose body is not
parseable JSON makes makeRequest throw the fixed Unknown error message,
not the HTTP status line as the claim states for a response without an
error field. -/
theorem makeRequest_unparseable_body :
    makeRequest { ok := false, status := 502, statusText := "Bad Gateway", jsonBody := none }
      = .error "Unknown error" ∧
    ("Unknown error" : String)
      ≠ statusLine { ok := false, status := 502, statusText := "Bad Gateway", jsonBody := none } := by
  exact ⟨by rfl, by decide⟩

/-- C7 (amended): an ok response never produces the upstream error; a
non-ok response throws the body error field when it is present and
nonempty, the HTTP status line when the body is parseable JSON whose
error field is absent or empty, and the fixed Unknown error message when
the body is not parseable JSON. -/
theorem makeRequest_amended (r : UpstreamResponse) :
    (r.ok = true → makeRequest r = .ok r.jsonBody) ∧
    (∀ o e, r.ok = false → r.jsonBody = some o → o.errorField = some e → e ≠ "" →
      makeRequest r = .error e) ∧
    (∀ o, r.ok = false → r.jsonBody = some o →
      (o.errorField = none ∨ o.errorField = some "") →
      makeRequest r = .error (statusLine r)) ∧
    (r.ok = false → r.jsonBody = none → makeRequest r = .error "Unknown error") := by
  refine ⟨?_, ?_, ?_, ?_⟩
  · intro hok
    simp [makeRequest, hok]
  · intro o e hok hb he hne
    simp [makeRequest, hok, hb, he, hne]
  · intro o hok hb hfe
    cases hfe with
    | inl h => simp [makeRequest, hok, hb, h]
    | inr h => simp [makeRequest, hok, hb, h]
  · intro hok hb
    simp [makeRequest, hok, hb]

/-- C7 (witness): the amended theorem at a response carrying an error
field and at an unparseable-body response. -/
theorem makeRequest_amended_witness :
    makeRequest
      { ok := false, status := 400, statusText := "Bad Request",
        jsonBody := some { errorField := some "Domain is required" } }
      = .error "Domain is required" ∧
    makeRequest
      { ok := false, status := 502, statusText := "Bad Gateway", jsonBody := none }
      = .error "Unknown error" :=
  ⟨(makeRequest_amended _).2.1 { errorField := some "Domain is required" }
      "Domain is required" rfl rfl rfl (by decide),
   (makeRequest_amended _).2.2.2 rfl rfl⟩

/-- C8: the idempotency key attached to the AI reply is a deterministic
function of the original message id, and replaying any number of webhook
deliveries for the same message id through the key-deduplicated send
leaves at most one outbound reply. -/
theorem idempotencyKey_at_most_one_reply :
    (∀ m1 m2 : String, m1 = m2 → idempotencyKey m1 = idempotencyKey m2) ∧
    (∀ (deliveries : List String) (m : String), (∀ x ∈ deliveries, x = m) →
      (replayDeliveries deliveries).length ≤ 1) := by
  refine ⟨fun m1 m2 h => by rw [h], ?_⟩
  intro deliveries m hsame
  have := replay_ledger_aux deliveries m [] (by simp) (by simp) hsame
  exact this.1

/-- C8 (witness): two deliveries of the same message id produce at most
one reply. -/
theorem idempotencyKey_at_most_one_reply_witness :
    (replayDeliveries ["msg-1", "msg-1"]).length ≤ 1 :=
  idempotencyKey_at_most_one_reply.2 ["msg-1", "msg-1"] "msg-1" (by decide)

/-- C9: an unparseable domain payload makes the load effect discard both
entries and leave the wizard at step 1 with no domain data (and the save
effects then persist exactly that reset state); a non-numeric or
out-of-range step entry is ignored and the wizard starts at step 1.  The
load function is total, so no corrupted entry can make it throw. -/
theorem wizard_corrupted_storage_recovery (e : StoredEntries) :
    (e.domainEntry = .unparseable →
      loadWizardState e = initialWizardState ∧
      storageAfterMount e = (none, some "1")) ∧
    (∀ str, e.stepEntry = some str → parseIntJS str = none →
      (loadWizardState e).step = 1) ∧
    (∀ str n, e.stepEntry = some str → parseIntJS str = some n → ¬(1 ≤ n ∧ n ≤ 4) →
      (loadWizardState e).step = 1) := by
  refine ⟨?_, ?_, ?_⟩
  · intro hun
    constructor
    · simp [loadWizardState, hun]
    · simp [storageAfterMount, loadWizardState, hun, initialWizardState]
      rfl
  · intro str hse hparse
    cases hd : e.domainEntry <;>
      simp [loadWizardState, hd, loadWizardState.loadStep, hse, hparse, initialWizardState]
  · intro str n hse hparse hrange
    cases hd : e.domainEntry <;>
      simp [loadWizardState, hd, loadWizardState.loadStep, hse, hparse, hrange,
        initialWizardState]

/-- C9 (witness): the theorem applied to storage holding an unparseable
payload together with a non-numeric step entry. -/
theorem wizard_corrupted_storage_recovery_witness :
    loadWizardState { domainEntry := .unparseable, stepEntry := some "abc" }
      = initialWizardState ∧
    storageAfterMount { domainEntry := .unparseable, stepEntry := some "abc" }
      = (none, some "1") ∧
    (loadWizardState { domainEntry := .absent, stepEntry := some "seven" }).step = 1 :=
  ⟨((wizard_corrupted_storage_recovery _).1 rfl).1,
   ((wizard_corrupted_storage_recovery _).1 rfl).2,
   (wizard_corrupted_storage_recovery _).2.1 "seven" rfl (by decide)⟩

/-- C10: starting from the initial state, every sequence of wizard events
(mount-time restore, successful creation, refresh, start-over) leaves the
current step an integer between 1 and 4. -/
theorem wizard_step_invariant (evs : List WizardEvent) :
    1 ≤ (runWizard evs).step ∧ (runWizard evs).step ≤ 4 :=
  runWizard_step_bounds evs initialWizardState (by decide) (by decide)
